import Mathlib

/-!
Shallow embedding of the FastAPI + SQLite todo service in
`src/fast-api-mcp-todo/main.py`, together with theorems settling the
specification claims about it.

The store (a SQLite table `todos(id INTEGER PRIMARY KEY AUTOINCREMENT,
content TEXT NOT NULL, completed BOOLEAN NOT NULL DEFAULT 0)`) is modelled
as a list of rows plus the AUTOINCREMENT sequence value.  Each HTTP
handler becomes a Lean function from its (decoded) input and the store
state to an HTTP response, the successor state, and the list of SQL
statements it executed against the store.
-/

namespace TodoApi

/-- A persisted row of the todos table: id, content, completed. -/
structure Todo where
  id : Nat
  content : String
  completed : Bool
deriving DecidableEq, Repr

/-- The persistent store.  `rows` is the table content in rowid order
(inserts append).  `nextId` is the value the next INSERT receives as its
id: SQLite `INTEGER PRIMARY KEY AUTOINCREMENT` hands out
`max(ever-used id) + 1` and never reuses a value after a delete. -/
structure DB where
  rows : List Todo
  nextId : Nat
deriving DecidableEq, Repr

/-- The store right after `init_db` on a fresh database file: empty table,
first assigned id is 1. -/
def DB.empty : DB := ⟨[], 1⟩

/-- Response body of a handler, as rendered by the framework. -/
inductive Body where
  | empty
  | todo (t : Todo)
  | todos (ts : List Todo)
  | detail (s : String)
  | msg (s : String)
deriving DecidableEq, Repr

/-- An HTTP response: status code and body.  A raised
`HTTPException(status_code, detail)` renders as status plus
`Body.detail`. -/
structure HResp where
  status : Nat
  body : Body
deriving DecidableEq, Repr

/-- A SQL statement executed against the store, recorded so that claims
about which store accesses a handler performs can be stated. -/
inductive StoreOp where
  | selectAll
  | selectById
  | insertRow
  | updateRow
  | deleteRow
deriving DecidableEq, Repr

/-- Pydantic model `TodoCreate`: a required, non-optional string field. -/
structure TodoCreate where
  content : String
deriving DecidableEq, Repr

/-- Pydantic model `TodoUpdate`: both fields are `Optional[...] = None`,
so each decoded field is `none` or a value. -/
structure TodoUpdate where
  content : Option String
  completed : Option Bool
deriving DecidableEq, Repr

/-- A field of a raw JSON request body before pydantic validation: it can
be absent from the object, be an explicit JSON `null`, or carry a value. -/
inductive JField (α : Type) where
  | omitted
  | null
  | val (a : α)
deriving DecidableEq, Repr

/-- Pydantic decoding of `TodoCreate` from a raw body: `content: str` must
be present and non-null; otherwise request validation fails (FastAPI
rejects the request with a 422 before the handler body runs, so the store
is never touched). -/
def parseCreate : JField String → Option TodoCreate
  | .val s => some ⟨s⟩
  | _ => none

/-- Pydantic decoding of one `Optional[...] = None` field of `TodoUpdate`:
an omitted field and an explicit JSON `null` both decode to `None`. -/
def JField.decodeOpt {α : Type} : JField α → Option α
  | .val a => some a
  | _ => none

/-- Pydantic decoding of `TodoUpdate` from a raw body (never fails, since
both fields are optional). -/
def parseUpdate (content : JField String) (completed : JField Bool) : TodoUpdate :=
  ⟨content.decodeOpt, completed.decodeOpt⟩

/-- A SELECT ... WHERE id = ? single-row lookup (`fetchone`). -/
def findTodo (todo_id : Nat) (rows : List Todo) : Option Todo :=
  rows.find? (fun t => t.id == todo_id)

/-- Comparison used by ORDER BY id. -/
def leById (a b : Todo) : Prop := a.id ≤ b.id

instance : DecidableRel leById := fun a b => Nat.decLe a.id b.id

instance : IsTotal Todo leById := ⟨fun a b => Nat.le_total a.id b.id⟩

instance : IsTrans Todo leById := ⟨fun _ _ _ => Nat.le_trans⟩

/-- Result set of SELECT id, content, completed FROM todos ORDER BY id. -/
def sortById (rows : List Todo) : List Todo :=
  rows.insertionSort leById

/-- Handler of GET /todos (`get_all_todos`): returns the whole table
ordered by ascending id, status 200. -/
def get_all_todos (db : DB) : HResp :=
  ⟨200, .todos (sortById db.rows)⟩

/-- Handler of GET /todos/{todo_id} (`get_todo`): single-row lookup,
404 with detail "Todo not found" when no row matches. -/
def get_todo (todo_id : Nat) (db : DB) : HResp :=
  match findTodo todo_id db.rows with
  | none => ⟨404, .detail "Todo not found"⟩
  | some row => ⟨200, .todo row⟩

/-- Handler body of POST /todos (`create_todo`), after validation: INSERT
(content, completed=false) — the store assigns id `nextId` — then re-read
the new row by `lastrowid` and return it with status 201.  The (dead)
branch where the read-back finds nothing corresponds to the Python
crashing on `dict(None)`, a 500. -/
def create_todo (todo : TodoCreate) (db : DB) : HResp × DB :=
  match findTodo db.nextId (db.rows ++ [⟨db.nextId, todo.content, false⟩]) with
  | some row =>
    (⟨201, .todo row⟩, ⟨db.rows ++ [⟨db.nextId, todo.content, false⟩], db.nextId + 1⟩)
  | none =>
    (⟨500, .detail "Internal Server Error"⟩,
      ⟨db.rows ++ [⟨db.nextId, todo.content, false⟩], db.nextId + 1⟩)

/-- POST /todos including the pydantic input boundary: a body whose
content field fails validation is rejected before the handler runs. -/
def post_todos (content : JField String) (db : DB) : HResp × DB :=
  match parseCreate content with
  | none => (⟨422, .detail "Field required"⟩, db)
  | some todo => create_todo todo db

/-- The sparse application of a PATCH body to a row: exactly the fields
present in the UPDATE statement built by `update_todo` change. -/
def TodoUpdate.applyTo (u : TodoUpdate) (t : Todo) : Todo :=
  ⟨t.id, u.content.getD t.content, u.completed.getD t.completed⟩

/-- Effect on the table of the UPDATE statement built by `update_todo`:
every row matching the WHERE clause gets exactly the supplied fields
overwritten; all other rows are untouched. -/
def updRows (todo_id : Nat) (u : TodoUpdate) (rows : List Todo) : List Todo :=
  rows.map (fun t => if t.id = todo_id then u.applyTo t else t)

/-- Handler of PATCH /todos/{todo_id} (`update_todo`): reject with 400
when neither field is supplied, before any store access; then existence
check by SELECT id; then UPDATE of exactly the supplied fields; then
re-read and return the updated row.  The (dead) branch where the re-read
finds nothing is the Python `dict(None)` crash, a 500. -/
def update_todo (todo_id : Nat) (todo_update : TodoUpdate) (db : DB) :
    HResp × DB × List StoreOp :=
  if todo_update.content = none ∧ todo_update.completed = none then
    (⟨400, .detail "At least one field must be provided"⟩, db, [])
  else
    match findTodo todo_id db.rows with
    | none => (⟨404, .detail "Todo not found"⟩, db, [.selectById])
    | some _ =>
      match findTodo todo_id (updRows todo_id todo_update db.rows) with
      | some row =>
        (⟨200, .todo row⟩, ⟨updRows todo_id todo_update db.rows, db.nextId⟩,
          [.selectById, .updateRow, .selectById])
      | none =>
        (⟨500, .detail "Internal Server Error"⟩,
          ⟨updRows todo_id todo_update db.rows, db.nextId⟩,
          [.selectById, .updateRow, .selectById])

/-- PATCH /todos/{todo_id} including the pydantic input boundary. -/
def patch_todo_raw (todo_id : Nat) (content : JField String) (completed : JField Bool)
    (db : DB) : HResp × DB × List StoreOp :=
  update_todo todo_id (parseUpdate content completed) db

/-- Handler of DELETE /todos/{todo_id} (`delete_todo`): one DELETE
statement; existence is read off `cursor.rowcount` (no separate lookup);
404 when no row was affected, otherwise 204 with empty body. -/
def delete_todo (todo_id : Nat) (db : DB) : HResp × DB × List StoreOp :=
  if db.rows.countP (fun t => t.id == todo_id) = 0 then
    (⟨404, .detail "Todo not found"⟩, db, [.deleteRow])
  else
    (⟨204, .empty⟩, ⟨db.rows.filter (fun t => t.id != todo_id), db.nextId⟩, [.deleteRow])

/-- One request against the service, used to describe reachable store
states. -/
inductive Req where
  | list
  | getOne (todo_id : Nat)
  | create (c : TodoCreate)
  | patch (todo_id : Nat) (u : TodoUpdate)
  | remove (todo_id : Nat)
deriving DecidableEq, Repr

/-- The store state after one request. -/
def stepReq (db : DB) : Req → DB
  | .list => db
  | .getOne _ => db
  | .create c => (create_todo c db).2
  | .patch todo_id u => (update_todo todo_id u db).2.1
  | .remove todo_id => (delete_todo todo_id db).2.1

/-- The store state after a sequence of requests. -/
def execReqs (db : DB) : List Req → DB
  | [] => db
  | r :: rs => execReqs (stepReq db r) rs

/-- The ids the store hands out (`lastrowid`) along a run, in order. -/
def assignedIds (db : DB) : List Req → List Nat
  | [] => []
  | r :: rs =>
    (match r with
     | .create _ => [db.nextId]
     | _ => []) ++ assignedIds (stepReq db r) rs

/-! Helper lemmas about lookups, updates and the store invariant. -/

theorem findTodo_eq_none_iff (todo_id : Nat) (l : List Todo) :
    findTodo todo_id l = none ↔ ∀ t ∈ l, t.id ≠ todo_id := by
  simp [findTodo, List.find?_eq_none]

theorem findTodo_append_fresh (todo_id : Nat) (t : Todo) (l : List Todo)
    (ht : t.id = todo_id) (hl : ∀ r ∈ l, r.id ≠ todo_id) :
    findTodo todo_id (l ++ [t]) = some t := by
  induction l with
  | nil => simp [findTodo, List.find?, ht]
  | cons a l ih =>
    have ha : (a.id == todo_id) = false := by
      simpa using hl a (List.mem_cons_self a l)
    simp only [findTodo, List.cons_append, List.find?, ha]
    exact ih (fun r hr => hl r (List.mem_cons_of_mem a hr))

theorem findTodo_append_isSome (todo_id : Nat) (t : Todo) (l : List Todo)
    (ht : t.id = todo_id) : (findTodo todo_id (l ++ [t])).isSome := by
  induction l with
  | nil => simp [findTodo, List.find?, ht]
  | cons a l ih =>
    by_cases ha : (a.id == todo_id) = true
    · simp [findTodo, List.find?, ha]
    · simp only [findTodo, List.cons_append, List.find?,
        Bool.not_eq_true (a.id == todo_id) ▸ ha, eq_false_of_ne_true ha]
      exact ih

theorem findTodo_map (f : Todo → Todo) (hf : ∀ r, (f r).id = r.id)
    (todo_id : Nat) (l : List Todo) :
    findTodo todo_id (l.map f) = (findTodo todo_id l).map f := by
  induction l with
  | nil => rfl
  | cons a l ih =>
    by_cases ha : (a.id == todo_id) = true
    · have : ((f a).id == todo_id) = true := by rw [hf]; exact ha
      simp [findTodo, List.find?, ha, this]
    · have : ((f a).id == todo_id) = false := by
        rw [hf]; exact eq_false_of_ne_true ha
      simp only [findTodo, List.map_cons, List.find?, this, eq_false_of_ne_true ha]
      exact ih

theorem findTodo_of_mem (t : Todo) (l : List Todo) (hmem : t ∈ l)
    (hnd : (l.map Todo.id).Nodup) : findTodo t.id l = some t := by
  induction l with
  | nil => cases hmem
  | cons a l ih =>
    rcases List.mem_cons.mp hmem with rfl | hmem'
    · simp [findTodo, List.find?]
    · have hne : a.id ≠ t.id := by
        intro h
        have : t.id ∈ l.map Todo.id := List.mem_map_of_mem Todo.id hmem'
        rw [← h] at this
        exact (List.nodup_cons.mp (by simpa using hnd)).1 this
      have : (a.id == t.id) = false := by simpa using hne
      simp only [findTodo, List.find?, this]
      exact ih hmem' (List.nodup_cons.mp (by simpa using hnd)).2

theorem map_id_updRows (u : TodoUpdate) (todo_id : Nat) (l : List Todo) :
    (updRows todo_id u l).map Todo.id = l.map Todo.id := by
  induction l with
  | nil => rfl
  | cons a l ih =>
    simp only [updRows, List.map_cons] at ih ⊢
    rw [ih]
    by_cases ha : a.id = todo_id <;> simp [ha, TodoUpdate.applyTo]

theorem filter_ne_updRows (u : TodoUpdate) (todo_id : Nat) (l : List Todo) :
    (updRows todo_id u l).filter (fun r => r.id != todo_id)
      = l.filter (fun r => r.id != todo_id) := by
  induction l with
  | nil => rfl
  | cons a l ih =>
    by_cases ha : a.id = todo_id
    · have e1 : updRows todo_id u (a :: l) = u.applyTo a :: updRows todo_id u l := by
        simp [updRows, ha]
      have h1 : ((u.applyTo a).id != todo_id) = false := by
        simp [TodoUpdate.applyTo, ha]
      have h2 : (a.id != todo_id) = false := by simp [ha]
      rw [e1, List.filter_cons, List.filter_cons]
      simp only [h1, h2, Bool.false_eq_true, if_false]
      exact ih
    · have e1 : updRows todo_id u (a :: l) = a :: updRows todo_id u l := by
        simp [updRows, ha]
      have h2 : (a.id != todo_id) = true := by simpa using ha
      rw [e1, List.filter_cons, List.filter_cons]
      simp only [h2, if_true]
      rw [ih]

theorem filter_ne_idem (todo_id : Nat) (l : List Todo) :
    (l.filter (fun t => t.id != todo_id)).filter (fun t => t.id != todo_id)
      = l.filter (fun t => t.id != todo_id) := by
  induction l with
  | nil => rfl
  | cons a l ih =>
    by_cases ha : (a.id != todo_id) = true
    · simp [List.filter, ha, ih]
    · simp [List.filter, eq_false_of_ne_true ha, ih]

theorem create_todo_state (c : TodoCreate) (db : DB) :
    (create_todo c db).2 = ⟨db.rows ++ [⟨db.nextId, c.content, false⟩], db.nextId + 1⟩ := by
  unfold create_todo
  split <;> rfl

theorem update_todo_rows_ids (todo_id : Nat) (u : TodoUpdate) (db : DB) :
    (update_todo todo_id u db).2.1.rows.map Todo.id = db.rows.map Todo.id := by
  unfold update_todo
  split
  · rfl
  · split
    · rfl
    · split <;> exact map_id_updRows u todo_id db.rows

theorem update_todo_nextId (todo_id : Nat) (u : TodoUpdate) (db : DB) :
    (update_todo todo_id u db).2.1.nextId = db.nextId := by
  unfold update_todo
  split
  · rfl
  · split
    · rfl
    · split <;> rfl

theorem delete_todo_state (todo_id : Nat) (db : DB) :
    (delete_todo todo_id db).2.1 = db ∨
      (delete_todo todo_id db).2.1 = ⟨db.rows.filter (fun t => t.id != todo_id), db.nextId⟩ := by
  unfold delete_todo
  split
  · exact Or.inl rfl
  · exact Or.inr rfl

theorem delete_todo_nextId (todo_id : Nat) (db : DB) :
    (delete_todo todo_id db).2.1.nextId = db.nextId := by
  rcases delete_todo_state todo_id db with h | h <;> rw [h]

theorem findTodo_updRows (todo_id : Nat) (u : TodoUpdate) (l : List Todo) :
    findTodo todo_id (updRows todo_id u l)
      = (findTodo todo_id l).map (fun t => if t.id = todo_id then u.applyTo t else t) := by
  unfold updRows
  exact findTodo_map _
    (fun r => by by_cases h : r.id = todo_id <;> simp [h, TodoUpdate.applyTo]) todo_id l

theorem update_todo_noFields (todo_id : Nat) (db : DB) :
    update_todo todo_id ⟨none, none⟩ db
      = (⟨400, .detail "At least one field must be provided"⟩, db, []) := by
  unfold update_todo
  rw [if_pos ⟨rfl, rfl⟩]

theorem update_todo_notFound (todo_id : Nat) (u : TodoUpdate) (db : DB)
    (hu : ¬(u.content = none ∧ u.completed = none))
    (ht : findTodo todo_id db.rows = none) :
    update_todo todo_id u db = (⟨404, .detail "Todo not found"⟩, db, [.selectById]) := by
  unfold update_todo
  rw [if_neg hu, ht]

theorem update_todo_found (todo_id : Nat) (u : TodoUpdate) (db : DB) (t : Todo)
    (hu : ¬(u.content = none ∧ u.completed = none))
    (ht : findTodo todo_id db.rows = some t) :
    update_todo todo_id u db =
      (⟨200, .todo (u.applyTo t)⟩, ⟨updRows todo_id u db.rows, db.nextId⟩,
        [.selectById, .updateRow, .selectById]) := by
  have hid : t.id = todo_id := by
    have hp := List.find?_some ht
    simpa using hp
  have hmap : findTodo todo_id (updRows todo_id u db.rows) = some (u.applyTo t) := by
    rw [findTodo_updRows, ht]
    show some (if t.id = todo_id then u.applyTo t else t) = some (u.applyTo t)
    rw [if_pos hid]
  unfold update_todo
  rw [if_neg hu, ht, hmap]

theorem create_todo_status (c : TodoCreate) (db : DB) :
    (create_todo c db).1.status = 201 := by
  unfold create_todo
  rcases h : findTodo db.nextId (db.rows ++ [⟨db.nextId, c.content, false⟩]) with _ | r
  · exfalso
    have hs := findTodo_append_isSome db.nextId ⟨db.nextId, c.content, false⟩ db.rows rfl
    rw [h] at hs
    simp at hs
  · rw [h]

theorem delete_todo_of_countZero (todo_id : Nat) (db : DB)
    (h : db.rows.countP (fun t => t.id == todo_id) = 0) :
    delete_todo todo_id db = (⟨404, .detail "Todo not found"⟩, db, [.deleteRow]) := by
  unfold delete_todo
  rw [if_pos h]

theorem delete_todo_of_countPos (todo_id : Nat) (db : DB)
    (h : ¬ db.rows.countP (fun t => t.id == todo_id) = 0) :
    delete_todo todo_id db =
      (⟨204, .empty⟩, ⟨db.rows.filter (fun t => t.id != todo_id), db.nextId⟩,
        [.deleteRow]) := by
  unfold delete_todo
  rw [if_neg h]

theorem update_todo_rows_cases (todo_id : Nat) (u : TodoUpdate) (db : DB) :
    (update_todo todo_id u db).2.1.rows = db.rows ∨
      (update_todo todo_id u db).2.1.rows = updRows todo_id u db.rows := by
  unfold update_todo
  split
  · exact Or.inl rfl
  · split
    · exact Or.inl rfl
    · split <;> exact Or.inr rfl

/-- The store invariant: every persisted id is below the AUTOINCREMENT
sequence value, and persisted ids are pairwise distinct. -/
def GoodDB (db : DB) : Prop :=
  (∀ i ∈ db.rows.map Todo.id, i < db.nextId) ∧ (db.rows.map Todo.id).Nodup

theorem goodDB_empty : GoodDB DB.empty := by
  constructor <;> simp [DB.empty]

theorem goodDB_step (db : DB) (r : Req) (h : GoodDB db) : GoodDB (stepReq db r) := by
  obtain ⟨hlt, hnd⟩ := h
  cases r with
  | list => exact ⟨hlt, hnd⟩
  | getOne todo_id => exact ⟨hlt, hnd⟩
  | create c =>
    simp only [stepReq, create_todo_state]
    constructor
    · intro i hi
      simp only [List.map_append, List.map_cons, List.map_nil, List.mem_append,
        List.mem_singleton] at hi
      rcases hi with hi | rfl
      · exact Nat.lt_succ_of_lt (hlt i hi)
      · exact Nat.lt_succ_self _
    · simp only [List.map_append, List.map_cons, List.map_nil]
      refine List.Nodup.append hnd (List.nodup_singleton _) ?_
      intro i hi hj
      simp only [List.mem_singleton] at hj
      exact absurd (hlt i hi) (by simp [hj])
  | patch todo_id u =>
    constructor
    · intro i hi
      rw [stepReq] at hi
      rw [update_todo_rows_ids] at hi
      rw [stepReq, update_todo_nextId]
      exact hlt i hi
    · show ((update_todo todo_id u db).2.1.rows.map Todo.id).Nodup
      rw [update_todo_rows_ids]
      exact hnd
  | remove todo_id =>
    show GoodDB (delete_todo todo_id db).2.1
    rcases delete_todo_state todo_id db with hdel | hdel <;> rw [hdel]
    · exact ⟨hlt, hnd⟩
    · have hsub : List.Sublist
          ((db.rows.filter (fun t => t.id != todo_id)).map Todo.id)
          (db.rows.map Todo.id) :=
        List.Sublist.map Todo.id (List.filter_sublist db.rows)
      exact ⟨fun i hi => hlt i (hsub.mem hi), hnd.sublist hsub⟩

theorem goodDB_exec (rs : List Req) (db : DB) (h : GoodDB db) :
    GoodDB (execReqs db rs) := by
  induction rs generalizing db with
  | nil => exact h
  | cons r rs ih => exact ih (stepReq db r) (goodDB_step db r h)

theorem stepReq_nextId_le (db : DB) (r : Req) : db.nextId ≤ (stepReq db r).nextId := by
  cases r with
  | list => exact Nat.le_refl _
  | getOne todo_id => exact Nat.le_refl _
  | create c => simp only [stepReq, create_todo_state]; exact Nat.le_succ _
  | patch todo_id u => simp only [stepReq]; rw [update_todo_nextId]
  | remove todo_id => simp only [stepReq]; rw [delete_todo_nextId]

theorem assignedIds_lb_sorted (rs : List Req) (db : DB) :
    (∀ a ∈ assignedIds db rs, db.nextId ≤ a) ∧
      (assignedIds db rs).Pairwise (· < ·) := by
  induction rs generalizing db with
  | nil => exact ⟨by simp [assignedIds], by simp [assignedIds]⟩
  | cons r rs ih =>
    obtain ⟨ihlb, ihp⟩ := ih (stepReq db r)
    have hle := stepReq_nextId_le db r
    cases r with
    | create c =>
      have hnext : (stepReq db (.create c)).nextId = db.nextId + 1 := by
        simp [stepReq, create_todo_state]
      constructor
      · intro a ha
        simp only [assignedIds, List.cons_append, List.nil_append,
          List.mem_cons] at ha
        rcases ha with rfl | ha
        · exact Nat.le_refl _
        · have hb := ihlb a ha
          rw [hnext] at hb
          exact Nat.le_trans (Nat.le_succ _) hb
      · simp only [assignedIds, List.cons_append, List.nil_append]
        refine List.pairwise_cons.mpr ⟨?_, ihp⟩
        intro a ha
        have hb := ihlb a ha
        rw [hnext] at hb
        exact Nat.lt_of_succ_le hb
    | list =>
      refine ⟨fun a ha => Nat.le_trans hle (ihlb a ?_), by simpa [assignedIds] using ihp⟩
      simpa [assignedIds] using ha
    | getOne todo_id =>
      refine ⟨fun a ha => Nat.le_trans hle (ihlb a ?_), by simpa [assignedIds] using ihp⟩
      simpa [assignedIds] using ha
    | patch todo_id u =>
      refine ⟨fun a ha => Nat.le_trans hle (ihlb a ?_), by simpa [assignedIds] using ihp⟩
      simpa [assignedIds] using ha
    | remove todo_id =>
      refine ⟨fun a ha => Nat.le_trans hle (ihlb a ?_), by simpa [assignedIds] using ihp⟩
      simpa [assignedIds] using ha

/-! Claim theorems. -/

/-- C1: Partial update is a sparse apply: on an existing todo, a PATCH
request changes exactly the supplied fields — an unsupplied field keeps
its prior value, and explicitly supplying completed = false sets it to
false, unlike omitting completed, which keeps the old value. -/
theorem C1_sparse_update (db : DB) (t : Todo) (u : TodoUpdate)
    (hmem : t ∈ db.rows) (hnd : (db.rows.map Todo.id).Nodup)
    (hu : ¬(u.content = none ∧ u.completed = none)) :
    update_todo t.id u db =
      (⟨200, .todo (u.applyTo t)⟩, ⟨updRows t.id u db.rows, db.nextId⟩,
        [.selectById, .updateRow, .selectById]) ∧
    (u.applyTo t).content = u.content.getD t.content ∧
    (u.applyTo t).completed = u.completed.getD t.completed ∧
    (u.content = none → (u.applyTo t).content = t.content) ∧
    (u.completed = none → (u.applyTo t).completed = t.completed) ∧
    (u.completed = some false → (u.applyTo t).completed = false) ∧
    updRows t.id u db.rows
      = db.rows.map (fun r => if r.id = t.id then u.applyTo r else r) := by
  refine ⟨update_todo_found t.id u db t hu (findTodo_of_mem t db.rows hmem hnd),
    rfl, rfl, ?_, ?_, ?_, rfl⟩
  · intro h; simp [TodoUpdate.applyTo, h]
  · intro h; simp [TodoUpdate.applyTo, h]
  · intro h; simp [TodoUpdate.applyTo, h]

/-- Witness for C1 at a concrete store. -/
theorem C1_sparse_update_witness :
    update_todo 1 ⟨some "B", some false⟩ ⟨[⟨1, "A", true⟩, ⟨2, "C", false⟩], 3⟩ =
      (⟨200, .todo ⟨1, "B", false⟩⟩, ⟨[⟨1, "B", false⟩, ⟨2, "C", false⟩], 3⟩,
        [.selectById, .updateRow, .selectById]) :=
  (C1_sparse_update ⟨[⟨1, "A", true⟩, ⟨2, "C", false⟩], 3⟩ ⟨1, "A", true⟩
    ⟨some "B", some false⟩ (List.mem_cons_self _ _) (by decide) (by decide)).1

/-- C2 counterexample: the claim requires non-empty content, but a create
request whose content is the empty string succeeds with 201 and inserts a
record, instead of failing validation with 400. -/
theorem C2_create_counterexample :
    post_todos (.val "") DB.empty
        = (⟨201, .todo ⟨1, "", false⟩⟩, ⟨[⟨1, "", false⟩], 2⟩) ∧
      (201 : Nat) ≠ 400 :=
  ⟨rfl, by decide⟩

/-- C2 (amended): the content field must be present: a create request
with content missing (or JSON null) fails request validation — FastAPI
rejects it with 422 before the handler runs — and no record is inserted;
a request whose content is any present string, the empty string included,
succeeds with 201 and appends the new record. -/
theorem C2_create_validation (db : DB) (s : String) :
    post_todos .omitted db = (⟨422, .detail "Field required"⟩, db) ∧
    post_todos .null db = (⟨422, .detail "Field required"⟩, db) ∧
    (post_todos (.val s) db).1.status = 201 ∧
    (post_todos (.val s) db).2 = ⟨db.rows ++ [⟨db.nextId, s, false⟩], db.nextId + 1⟩ :=
  ⟨rfl, rfl, create_todo_status ⟨s⟩ db, create_todo_state ⟨s⟩ db⟩

/-- C3: a PATCH supplying neither field returns 400 on every id and every
store state, performs no store access, and leaves the store unchanged. -/
theorem C3_empty_patch_rejected (todo_id : Nat) (db : DB) :
    update_todo todo_id ⟨none, none⟩ db
      = (⟨400, .detail "At least one field must be provided"⟩, db, []) :=
  update_todo_noFields todo_id db

/-- C4: delete reports 404 exactly when no row with the id existed, with
existence read off the delete statement itself (the only store operation
executed); on success it removes the row, answers 204 with empty body,
and a subsequent GET of that id answers 404. -/
theorem C4_delete_semantics (todo_id : Nat) (db : DB) :
    ((delete_todo todo_id db).1 = ⟨404, .detail "Todo not found"⟩ ↔
        ∀ t ∈ db.rows, t.id ≠ todo_id) ∧
    ((delete_todo todo_id db).1 = ⟨404, .detail "Todo not found"⟩ →
        (delete_todo todo_id db).2.1 = db) ∧
    ((∃ t ∈ db.rows, t.id = todo_id) →
        delete_todo todo_id db =
          (⟨204, .empty⟩, ⟨db.rows.filter (fun t => t.id != todo_id), db.nextId⟩,
            [.deleteRow]) ∧
        get_todo todo_id (delete_todo todo_id db).2.1
          = ⟨404, .detail "Todo not found"⟩) ∧
    (delete_todo todo_id db).2.2 = [.deleteRow] := by
  by_cases h : db.rows.countP (fun t => t.id == todo_id) = 0
  · have habs : ∀ t ∈ db.rows, t.id ≠ todo_id := by
      intro t ht
      have := List.countP_eq_zero.mp h t ht
      simpa using this
    rw [delete_todo_of_countZero todo_id db h]
    refine ⟨⟨fun _ => habs, fun _ => rfl⟩, fun _ => rfl, ?_, rfl⟩
    rintro ⟨t, ht, hid⟩
    exact absurd hid (habs t ht)
  · have hresp := delete_todo_of_countPos todo_id db h
    rw [hresp]
    have hget : get_todo todo_id
        (⟨db.rows.filter (fun t => t.id != todo_id), db.nextId⟩ : DB)
          = ⟨404, .detail "Todo not found"⟩ := by
      unfold get_todo
      have hnone : findTodo todo_id (db.rows.filter (fun t => t.id != todo_id)) = none := by
        rw [findTodo_eq_none_iff]
        intro t ht
        have := (List.mem_filter.mp ht).2
        simpa using this
      rw [hnone]
    refine ⟨⟨fun hc => ?_, fun hall => ?_⟩, fun hc => ?_, fun _ => ⟨rfl, hget⟩, rfl⟩
    · have h' : (204 : Nat) = 404 := congrArg HResp.status hc
      exact absurd h' (by decide)
    · exact absurd (List.countP_eq_zero.mpr (by intro t ht; simpa using hall t ht)) h
    · have h' : (204 : Nat) = 404 := congrArg HResp.status hc
      exact absurd h' (by decide)

/-- Witness for C4 at a concrete store with one row. -/
theorem C4_delete_semantics_witness :
    delete_todo 1 (⟨[⟨1, "A", false⟩], 2⟩ : DB)
        = (⟨204, .empty⟩, ⟨[], 2⟩, [.deleteRow]) ∧
      get_todo 1 (delete_todo 1 (⟨[⟨1, "A", false⟩], 2⟩ : DB)).2.1
        = ⟨404, .detail "Todo not found"⟩ :=
  (C4_delete_semantics 1 ⟨[⟨1, "A", false⟩], 2⟩).2.2.1
    ⟨⟨1, "A", false⟩, List.mem_cons_self _ _, rfl⟩

/-- C5: on an id with no persisted row, GET, PATCH (with at least one
field supplied) and DELETE all answer 404 with a detail body and leave
the store unchanged. -/
theorem C5_not_found_consistency (todo_id : Nat) (db : DB) (u : TodoUpdate)
    (hX : findTodo todo_id db.rows = none)
    (hu : ¬(u.content = none ∧ u.completed = none)) :
    get_todo todo_id db = ⟨404, .detail "Todo not found"⟩ ∧
    update_todo todo_id u db = (⟨404, .detail "Todo not found"⟩, db, [.selectById]) ∧
    delete_todo todo_id db = (⟨404, .detail "Todo not found"⟩, db, [.deleteRow]) := by
  refine ⟨?_, update_todo_notFound todo_id u db hu hX, ?_⟩
  · unfold get_todo
    rw [hX]
  · refine delete_todo_of_countZero todo_id db (List.countP_eq_zero.mpr ?_)
    intro t ht
    have := (findTodo_eq_none_iff todo_id db.rows).mp hX t ht
    simpa using this

/-- Witness for C5 at a concrete store and a missing id. -/
theorem C5_not_found_consistency_witness :
    findTodo 5 ([⟨1, "A", false⟩] : List Todo) = none ∧
    ¬((some true : Option Bool) = none ∧ (none : Option String) = none) ∧
    (get_todo 5 (⟨[⟨1, "A", false⟩], 2⟩ : DB) = ⟨404, .detail "Todo not found"⟩ ∧
      update_todo 5 ⟨none, some true⟩ (⟨[⟨1, "A", false⟩], 2⟩ : DB)
        = (⟨404, .detail "Todo not found"⟩, ⟨[⟨1, "A", false⟩], 2⟩, [.selectById]) ∧
      delete_todo 5 (⟨[⟨1, "A", false⟩], 2⟩ : DB)
        = (⟨404, .detail "Todo not found"⟩, ⟨[⟨1, "A", false⟩], 2⟩, [.deleteRow])) :=
  ⟨rfl, by decide,
    C5_not_found_consistency 5 ⟨[⟨1, "A", false⟩], 2⟩ ⟨none, some true⟩ rfl (by decide)⟩

/-- C6: round-trip: when every persisted id is below the sequence value
(true in every reachable store), creating a todo returns 201 with the
freshly inserted record — content as requested, completed false, id the
store-assigned one — and a GET of that id on the resulting store returns
the same record. -/
theorem C6_create_roundtrip (db : DB) (c : TodoCreate)
    (hfresh : db.rows.all (fun t => t.id < db.nextId) = true) :
    create_todo c db =
      (⟨201, .todo ⟨db.nextId, c.content, false⟩⟩,
        ⟨db.rows ++ [⟨db.nextId, c.content, false⟩], db.nextId + 1⟩) ∧
    get_todo db.nextId (create_todo c db).2
      = ⟨200, .todo ⟨db.nextId, c.content, false⟩⟩ := by
  have hne : ∀ r ∈ db.rows, r.id ≠ db.nextId := by
    intro r hr
    have hb := List.all_eq_true.mp hfresh r hr
    have hlt : r.id < db.nextId := by simpa using hb
    exact Nat.ne_of_lt hlt
  have hfind : findTodo db.nextId (db.rows ++ [⟨db.nextId, c.content, false⟩])
      = some ⟨db.nextId, c.content, false⟩ :=
    findTodo_append_fresh db.nextId ⟨db.nextId, c.content, false⟩ db.rows rfl hne
  constructor
  · unfold create_todo
    rw [hfind]
  · rw [create_todo_state]
    unfold get_todo
    show (match findTodo db.nextId (db.rows ++ [⟨db.nextId, c.content, false⟩]) with
      | none => (⟨404, .detail "Todo not found"⟩ : HResp)
      | some row => ⟨200, .todo row⟩) = _
    rw [hfind]

/-- Witness for C6 on the empty store. -/
theorem C6_create_roundtrip_witness :
    DB.empty.rows.all (fun t => t.id < DB.empty.nextId) = true ∧
    (create_todo ⟨"buy milk"⟩ DB.empty =
        (⟨201, .todo ⟨1, "buy milk", false⟩⟩, ⟨[⟨1, "buy milk", false⟩], 2⟩) ∧
      get_todo 1 (create_todo ⟨"buy milk"⟩ DB.empty).2
        = ⟨200, .todo ⟨1, "buy milk", false⟩⟩) :=
  ⟨rfl, C6_create_roundtrip DB.empty ⟨"buy milk"⟩ rfl⟩

/-- C7: listing returns status 200 with every persisted record exactly
once (a permutation of the table), sorted by ascending id, and the empty
store yields the empty array rather than an error. -/
theorem C7_list_all_sorted (db : DB) :
    get_all_todos db = ⟨200, .todos (sortById db.rows)⟩ ∧
    (sortById db.rows).Perm db.rows ∧
    (sortById db.rows).Pairwise leById ∧
    get_all_todos ⟨[], db.nextId⟩ = ⟨200, .todos []⟩ :=
  ⟨rfl, List.perm_insertionSort leById db.rows,
    List.sorted_insertionSort leById db.rows, rfl⟩

/-- C8: in every store state reachable from the fresh database, persisted
ids are pairwise distinct; the ids the store hands out along any run are
pairwise distinct as well (so an id freed by a delete is never assigned
again), creation appends a record carrying the store-chosen id, and
update never changes any id. -/
theorem C8_id_uniqueness (rs : List Req) :
    ((execReqs DB.empty rs).rows.map Todo.id).Nodup ∧
    (assignedIds DB.empty rs).Nodup ∧
    (∀ (c : TodoCreate) (db : DB),
        (create_todo c db).2
          = ⟨db.rows ++ [⟨db.nextId, c.content, false⟩], db.nextId + 1⟩) ∧
    (∀ (todo_id : Nat) (u : TodoUpdate) (db : DB),
        (update_todo todo_id u db).2.1.rows.map Todo.id = db.rows.map Todo.id) := by
  refine ⟨(goodDB_exec rs DB.empty goodDB_empty).2, ?_,
    create_todo_state, update_todo_rows_ids⟩
  have hp := (assignedIds_lb_sorted rs DB.empty).2
  exact hp.imp (fun h => Nat.ne_of_lt h)

/-- C9: at the PATCH input boundary an explicit JSON null is decoded like
an omitted field: content = null with completed supplied behaves exactly
like omitting content (updating only completed on an existing row), and
a body whose every supplied field is null is rejected with 400 exactly
like the empty body. -/
theorem C9_null_equals_omitted (todo_id : Nat) (db : DB) (b : Bool) (t : Todo)
    (ht : findTodo todo_id db.rows = some t) :
    patch_todo_raw todo_id .null (.val b) db
        = patch_todo_raw todo_id .omitted (.val b) db ∧
    patch_todo_raw todo_id .null .null db
        = (⟨400, .detail "At least one field must be provided"⟩, db, []) ∧
    patch_todo_raw todo_id .omitted .omitted db
        = (⟨400, .detail "At least one field must be provided"⟩, db, []) ∧
    patch_todo_raw todo_id .null .omitted db
        = patch_todo_raw todo_id .omitted .omitted db ∧
    (patch_todo_raw todo_id .null (.val b) db).1
        = ⟨200, .todo ⟨t.id, t.content, b⟩⟩ := by
  refine ⟨rfl, update_todo_noFields todo_id db, update_todo_noFields todo_id db, rfl, ?_⟩
  have hfound := update_todo_found todo_id ⟨none, some b⟩ db t (by simp) ht
  show (update_todo todo_id ⟨none, some b⟩ db).1 = _
  rw [hfound]
  rfl

/-- Witness for C9 at a concrete store. -/
theorem C9_null_equals_omitted_witness :
    findTodo 1 ([⟨1, "A", false⟩] : List Todo) = some ⟨1, "A", false⟩ ∧
    (patch_todo_raw 1 .null (.val true) (⟨[⟨1, "A", false⟩], 2⟩ : DB)
        = patch_todo_raw 1 .omitted (.val true) (⟨[⟨1, "A", false⟩], 2⟩ : DB) ∧
      patch_todo_raw 1 .null .null (⟨[⟨1, "A", false⟩], 2⟩ : DB)
        = (⟨400, .detail "At least one field must be provided"⟩,
            ⟨[⟨1, "A", false⟩], 2⟩, []) ∧
      patch_todo_raw 1 .omitted .omitted (⟨[⟨1, "A", false⟩], 2⟩ : DB)
        = (⟨400, .detail "At least one field must be provided"⟩,
            ⟨[⟨1, "A", false⟩], 2⟩, []) ∧
      patch_todo_raw 1 .null .omitted (⟨[⟨1, "A", false⟩], 2⟩ : DB)
        = patch_todo_raw 1 .omitted .omitted (⟨[⟨1, "A", false⟩], 2⟩ : DB) ∧
      (patch_todo_raw 1 .null (.val true) (⟨[⟨1, "A", false⟩], 2⟩ : DB)).1
        = ⟨200, .todo ⟨1, "A", true⟩⟩) :=
  ⟨rfl, C9_null_equals_omitted 1 ⟨[⟨1, "A", false⟩], 2⟩ true ⟨1, "A", false⟩ rfl⟩

/-- C10: PATCH and DELETE on an id leave every row with a different id
untouched, and the sequence value unchanged, whether they succeed or
fail. -/
theorem C10_frame (todo_id : Nat) (u : TodoUpdate) (db : DB) :
    (update_todo todo_id u db).2.1.rows.filter (fun r => r.id != todo_id)
        = db.rows.filter (fun r => r.id != todo_id) ∧
    (delete_todo todo_id db).2.1.rows.filter (fun r => r.id != todo_id)
        = db.rows.filter (fun r => r.id != todo_id) ∧
    (update_todo todo_id u db).2.1.nextId = db.nextId ∧
    (delete_todo todo_id db).2.1.nextId = db.nextId := by
  refine ⟨?_, ?_, update_todo_nextId todo_id u db, delete_todo_nextId todo_id db⟩
  · rcases update_todo_rows_cases todo_id u db with h | h <;> rw [h]
    exact filter_ne_updRows u todo_id db.rows
  · rcases delete_todo_state todo_id db with h | h <;> rw [h]
    exact filter_ne_idem todo_id db.rows

end TodoApi
